import Mathlib

/-!
Verification of the image pull-and-unpack pipeline of the containerd client
(`client.go`) and the container-spec options (`spec.go`).

The two source files are embedded shallowly:

* `spec.go` — `SpecOpts`, `WithImageRef`, `WithArgs`, `GenerateSpec`: the
  runtime spec is a record; a Go nil pointer is `Option`; a nil-pointer
  dereference is the `none` branch of a total embedding.
* `client.go` — `getLayers`, `Unpack`, `Pull`, `WithPullUnpack`,
  `defaultPullContext`: stateful code is modelled by explicit state passing;
  calls to collaborators (resolver, image store, snapshotter, diff service)
  are recorded in an explicit event trace.  Go errors are their message
  strings; `errors.Wrap` prepends a message.
* Repository code that the client calls but that lies outside the two files
  (`content.ReadBlob`, `images.Image.RootFS`, `images.Dispatch` with
  `remotes.FetchHandler` / `images.ChildrenHandler`, `rootfs.ApplyLayers`,
  `identity.ChainID`) is modelled from the specification, as marked on each
  definition.

Digests form a free term algebra: `Digest.str` for plain content digests and
`Digest.chain` for the fold step of ChainID computation, so distinct chains
are distinguishable without a concrete hash function.
-/

/-- A content digest: either a plain algorithm-tagged hash (opaque string) or
the chain-combination of a parent chain digest with a next diff ID, modelling
the ChainID fold as a free term algebra. -/
inductive Digest where
  | str : String → Digest
  | chain : Digest → Digest → Digest
deriving DecidableEq, Repr

/-- OCI descriptor: media type, digest, size (`v1.Descriptor`). -/
structure Descriptor where
  mediaType : String
  digest : Digest
  size : Int
deriving DecidableEq, Repr

/-- The uncompressed image-layer media type, `v1.MediaTypeImageLayer`. -/
def MediaTypeImageLayer : String := "application/vnd.oci.image.layer.v1.tar"

/-- An OCI manifest: config descriptor plus ordered layer descriptors
(`v1.Manifest`, fields relevant to the pipeline). -/
structure Manifest where
  config : Descriptor
  layers : List Descriptor
deriving DecidableEq, Repr

/-- An image record of the image store: name and target (manifest) descriptor
(`images.Image`). -/
structure Image where
  name : String
  target : Descriptor
deriving DecidableEq, Repr

/-- A rootfs layer pairing the uncompressed diff identity with the fetched
blob descriptor (`rootfs.Layer`). -/
structure Layer where
  diff : Descriptor
  blob : Descriptor
deriving DecidableEq, Repr

/-- A stored blob, abstracted over byte-level encoding: a manifest blob
parses to a `Manifest`, a config blob carries the diff-ID chain of its
`rootfs` section, and any other content is raw bytes. -/
inductive Blob where
  | manifestBlob : Manifest → Blob
  | configBlob : List Digest → Blob
  | rawBlob : String → Blob
deriving DecidableEq, Repr

/-- The content-addressed blob store: an association list keyed by digest;
earlier entries shadow later ones, matching map semantics. -/
abbrev Store := List (Digest × Blob)

/-- Lookup in the blob store by digest. -/
def Store.lookup : Store → Digest → Option Blob
  | [], _ => none
  | (k, v) :: rest, d => if k = d then some v else Store.lookup rest d

/-- Every lookup that succeeds in `s` succeeds with the same blob in `s'`:
the content of `s` is contained in `s'` (Boolean, decidable). -/
def Store.includes (s' s : Store) : Bool :=
  s.all fun kv => decide (Store.lookup s' kv.1 = Store.lookup s kv.1)

/-- Go error values are modelled by their message strings. -/
abbrev Err := String

instance {ε α : Type} [DecidableEq ε] [DecidableEq α] : DecidableEq (Except ε α) := fun a b =>
  match a, b with
  | .ok x, .ok y =>
    if h : x = y then .isTrue (by rw [h]) else .isFalse (by intro he; cases he; exact h rfl)
  | .error x, .error y =>
    if h : x = y then .isTrue (by rw [h]) else .isFalse (by intro he; cases he; exact h rfl)
  | .ok _, .error _ => .isFalse (by intro he; cases he)
  | .error _, .ok _ => .isFalse (by intro he; cases he)

/-- Message wrapping of `errors.Wrap` / `errors.Wrapf`. -/
def wrap (msg : String) (e : Err) : Err := msg ++ ": " ++ e

/-- The not-found error of the content store (spec section 6: `BlobStore.Get`
fails with `NotFound`). -/
def notFoundErr : Err := "content: not found"

/-- Modelled from the spec: `content.ReadBlob` reads the bytes of the blob
stored under a digest; `BlobStore.Get(digest) -> bytes` fails with `NotFound`
when the digest is absent. -/
def ReadBlob (s : Store) (d : Digest) : Except Err Blob :=
  match Store.lookup s d with
  | some b => .ok b
  | none => .error notFoundErr

/-- Modelled from the spec: `json.Unmarshal` of a manifest blob into
`v1.Manifest` succeeds exactly on manifest content; any other stored content
fails to parse as a manifest. -/
def unmarshalManifest : Blob → Except Err Manifest
  | .manifestBlob m => .ok m
  | _ => .error "invalid manifest"

/-- Modelled from the spec: `images.Image.RootFS` reads the diff-ID chain
from the image's config blob — it follows `image.target.digest` to the
manifest, then the manifest's config descriptor to the config blob, and
returns the config's ordered diff-ID sequence. -/
def Image.RootFS (s : Store) (img : Image) : Except Err (List Digest) :=
  match Store.lookup s img.target.digest with
  | none => .error notFoundErr
  | some (Blob.manifestBlob m) =>
    match Store.lookup s m.config.digest with
    | some (Blob.configBlob ids) => .ok ids
    | some _ => .error "invalid config"
    | none => .error notFoundErr
  | some _ => .error "invalid manifest"

/-- The error returned by `getLayers` when the diff-ID count and the manifest
layer count disagree (`errors.Errorf` in `client.go`). -/
def layerMismatchErr : Err := "mismatched image rootfs and manifest layers"

/-- The layer list built by the `for i := range diffIDs` loop of `getLayers`:
each diff descriptor gets the fixed uncompressed layer media type and the
diff ID as digest (size is the Go zero value), and the blob is the manifest
layer at the same index. -/
def mkLayers (diffIDs : List Digest) (manifestLayers : List Descriptor) : List Layer :=
  List.zipWith
    (fun d l => { diff := { mediaType := MediaTypeImageLayer, digest := d, size := 0 }, blob := l })
    diffIDs manifestLayers

/-- Embedding of `(s *snapshotUnpacker) getLayers` from `client.go`: read the
manifest blob by `image.Target.Digest`, unmarshal it, resolve the diff-ID
chain via `image.RootFS`, enforce the length-equality invariant, and pair
each diff ID with the manifest layer at the same index. -/
def getLayers (s : Store) (image : Image) : Except Err (List Layer) :=
  match ReadBlob s image.target.digest with
  | .error e => .error (wrap "failed to read manifest blob" e)
  | .ok p =>
    match unmarshalManifest p with
    | .error e => .error (wrap "failed to unmarshal manifest" e)
    | .ok manifest =>
      match Image.RootFS s image with
      | .error e => .error (wrap "failed to resolve rootfs" e)
      | .ok diffIDs =>
        if diffIDs.length ≠ manifest.layers.length then
          .error layerMismatchErr
        else
          .ok (mkLayers diffIDs manifest.layers)

/-- A collaborator call observable in an execution trace: resolver calls,
blob fetches, image-store calls, the unpacker entry, snapshotter and diff
service calls.  The delete constructors exist so that frame properties (the
pipeline never deletes) are non-vacuous: no definition below emits them. -/
inductive Ev where
  | resolveEv : String → Ev
  | fetcherEv : String → Ev
  | fetch : Digest → Ev
  | imagePutEv : String → Descriptor → Ev
  | imageGetEv : String → Ev
  | unpackEv : Image → Ev
  | prepare : Digest → Option Digest → Ev
  | applyDiff : Descriptor → Ev
  | commit : Digest → Ev
  | deleteBlob : Digest → Ev
  | deleteImage : String → Ev
  | deleteSnapshot : Digest → Ev
deriving DecidableEq, Repr

/-- Is the event a delete/rollback issued to the blob store, image store or
snapshotter? -/
def Ev.isDelete : Ev → Bool
  | .deleteBlob _ => true
  | .deleteImage _ => true
  | .deleteSnapshot _ => true
  | _ => false

/-- Is the event a snapshotter call? -/
def Ev.isSnapshotCall : Ev → Bool
  | .prepare _ _ => true
  | .commit _ => true
  | .deleteSnapshot _ => true
  | _ => false

/-- Is the event a diff-service call? -/
def Ev.isDiffCall : Ev → Bool
  | .applyDiff _ => true
  | _ => false

/-- Is the event a blob fetch? -/
def Ev.isFetch : Ev → Bool
  | .fetch _ => true
  | _ => false

/-- Is the event an image-store call? -/
def Ev.isImageStoreCall : Ev → Bool
  | .imagePutEv _ _ => true
  | .imageGetEv _ => true
  | .deleteImage _ => true
  | _ => false

/-- Modelled from the spec: `rootfs.ApplyLayers` (spec 4.3) applies each
layer in order — compute the running ChainID by folding the diff IDs
(`identity.ChainID`; the state before any layer is the empty base state,
`none`), prepare a writable snapshot keyed by the running ChainID against
the previous ChainID as parent, apply the layer blob through the diff
service, and commit under the running ChainID.  `applyOK` injects the
outcome of each diff-service application; a failed application aborts the
sequence.  The result pairs the outcome with the trace of snapshotter and
diff-service calls. -/
def ApplyLayers (applyOK : Descriptor → Bool) : Option Digest → List Layer → Except Err Unit × List Ev
  | _, [] => (.ok (), [])
  | parent, l :: rest =>
    let key : Digest :=
      match parent with
      | none => l.diff.digest
      | some p => Digest.chain p l.diff.digest
    if applyOK l.blob then
      let r := ApplyLayers applyOK (some key) rest
      (r.1, Ev.prepare key parent :: Ev.applyDiff l.blob :: Ev.commit key :: r.2)
    else
      (.error "failed to apply layer", [Ev.prepare key parent, Ev.applyDiff l.blob])

/-- Embedding of `(s *snapshotUnpacker) Unpack` from `client.go`: resolve the
layer list with `getLayers`, then hand it to `rootfs.ApplyLayers`; a
`getLayers` failure is returned before any snapshotter or diff-service call
is made (empty trace). -/
def Unpack (applyOK : Descriptor → Bool) (s : Store) (image : Image) : Except Err Unit × List Ev :=
  match getLayers s image with
  | .error e => (.error e, [])
  | .ok layers => ApplyLayers applyOK none layers

/-- The children of a stored blob under the content-graph children relation
(spec 4.1, `images.ChildrenHandler`): a manifest's children are its config
and its layers; configs and raw blobs have none. -/
def Blob.children : Blob → List Descriptor
  | .manifestBlob m => m.config :: m.layers
  | _ => []

/-- Modelled from the spec: `images.Dispatch` over the handler pipeline
`remotes.FetchHandler(store, fetcher)` then `images.ChildrenHandler(store)`
(spec 4.1).  The worklist of descriptors is processed node by node: a node
whose digest is absent from the blob store is fetched from the remote
(recorded as an `Ev.fetch`) and stored keyed by its digest; a node already
resolvable in the store is not re-fetched; then the node's children are
prepended to the worklist.  A fetch failure aborts the whole dispatch;
blobs already stored are retained.  `fuel` bounds the recursion depth of
the traversal.  Returns the outcome, the final store, and the fetch
trace. -/
def Dispatch (remote : Digest → Option Blob) : Nat → Store → List Descriptor → Except Err Unit × Store × List Ev
  | _, s, [] => (.ok (), s, [])
  | 0, s, _ :: _ => (.error "dispatch: depth exceeded", s, [])
  | fuel + 1, s, d :: rest =>
    match Store.lookup s d.digest with
    | some b => Dispatch remote fuel s (Blob.children b ++ rest)
    | none =>
      match remote d.digest with
      | none => (.error notFoundErr, s, [])
      | some b =>
        let r := Dispatch remote fuel ((d.digest, b) :: s) (Blob.children b ++ rest)
        (r.1, r.2.1, Ev.fetch d.digest :: r.2.2)

/-- The image store: name-to-descriptor records, newest first. -/
abbrev ImageStore := List (String × Descriptor)

/-- Modelled from the spec: `ImageStore.Put` is a last-write-wins upsert of
`(name, descriptor)` (spec 6). -/
def imagePut (is : ImageStore) (name : String) (d : Descriptor) : ImageStore :=
  (name, d) :: is.filter fun nd => nd.1 ≠ name

/-- Modelled from the spec: `ImageStore.Get` returns the image recorded
under the name, failing with `NotFound` when absent (spec 6). -/
def imageGet (is : ImageStore) (name : String) : Except Err Image :=
  match is.find? (fun nd => nd.1 = name) with
  | some nd => .ok { name := nd.1, target := nd.2 }
  | none => .error "image: not found"

/-- Configuration assembled by `PullOpts` before a pull: the unpacker is nil
(`none`) unless installed.  The installed unpacker is the
`snapshotUnpacker` wired to the client's content store, diff service and
snapshotter, which the model runs as `Unpack` against the pull's blob
store. -/
structure PullContext where
  unpacker : Option Unit
deriving DecidableEq, Repr

/-- Embedding of `defaultPullContext`: no unpacker installed. -/
def defaultPullContext : PullContext := { unpacker := none }

/-- Embedding of `WithPullUnpack` from `client.go`: installs the
`snapshotUnpacker` (content store + diff service + snapshotter of the
client) into the pull context. -/
def WithPullUnpack (c : PullContext) : PullContext := { c with unpacker := some () }

/-- The pull options that exist in `client.go`. -/
inductive PullOpt where
  | withPullUnpack
deriving DecidableEq, Repr

/-- Application of one pull option to the context. -/
def applyPullOpt (c : PullContext) : PullOpt → PullContext
  | .withPullUnpack => WithPullUnpack c

/-- The `for _, o := range opts` loop of `Pull` (no option in `client.go`
can fail). -/
def applyPullOpts : PullContext → List PullOpt → PullContext
  | c, [] => c
  | c, o :: rest => applyPullOpts (applyPullOpt c o) rest

/-- The environment of one pull: behaviour of the remote collaborators.
`resolve` and the error injectors model the resolver and the image-store
RPCs, which may fail independently of local state; `remote` is the content
served by the fetcher; `applyOK` is the outcome of diff-service
applications. -/
structure World where
  resolve : String → Except Err (String × Descriptor)
  fetcherErr : Option Err
  remote : Digest → Option Blob
  putErr : Option Err
  getErr : Option Err
  applyOK : Descriptor → Bool

/-- The observable outcome of `Pull`: the returned image (or error), the
final blob store, the final image store, and the trace of collaborator
calls. -/
structure PullResult where
  result : Except Err Image
  store : Store
  imageStore : ImageStore
  trace : List Ev
deriving DecidableEq, Repr

/-- Embedding of `(c *Client) Pull` from `client.go`: apply the options,
resolve the reference, obtain a fetcher, dispatch rooted at the resolved
descriptor, `Put` the `(name, descriptor)` record, `Get` the image back,
and — only when an unpacker was installed — unpack the image read back from
the store.  Each stage that fails makes `Pull` return that stage's error
with no image and no later stage executed. -/
def Pull (w : World) (fuel : Nat) (s : Store) (is : ImageStore) (ref : String) (opts : List PullOpt) : PullResult :=
  let pullCtx := applyPullOpts defaultPullContext opts
  match w.resolve ref with
  | .error e => { result := .error e, store := s, imageStore := is, trace := [Ev.resolveEv ref] }
  | .ok (name, desc) =>
    match w.fetcherErr with
    | some e =>
      { result := .error e, store := s, imageStore := is
        trace := [Ev.resolveEv ref, Ev.fetcherEv name] }
    | none =>
      let dr := Dispatch w.remote fuel s [desc]
      let tr := Ev.resolveEv ref :: Ev.fetcherEv name :: dr.2.2
      match dr.1 with
      | .error e => { result := .error e, store := dr.2.1, imageStore := is, trace := tr }
      | .ok () =>
        match w.putErr with
        | some e =>
          { result := .error e, store := dr.2.1, imageStore := is
            trace := tr ++ [Ev.imagePutEv name desc] }
        | none =>
          let is' := imagePut is name desc
          let tr := tr ++ [Ev.imagePutEv name desc]
          match w.getErr with
          | some e =>
            { result := .error e, store := dr.2.1, imageStore := is'
              trace := tr ++ [Ev.imageGetEv name] }
          | none =>
            match imageGet is' name with
            | .error e =>
              { result := .error e, store := dr.2.1, imageStore := is'
                trace := tr ++ [Ev.imageGetEv name] }
            | .ok i =>
              let tr := tr ++ [Ev.imageGetEv name]
              match pullCtx.unpacker with
              | none => { result := .ok i, store := dr.2.1, imageStore := is', trace := tr }
              | some () =>
                let ur := Unpack w.applyOK dr.2.1 i
                let tr := tr ++ Ev.unpackEv i :: ur.2
                match ur.1 with
                | .error e => { result := .error e, store := dr.2.1, imageStore := is', trace := tr }
                | .ok () => { result := .ok i, store := dr.2.1, imageStore := is', trace := tr }

section SpecGo

/-- The process section of a runtime spec (`specs.Process`, fields relevant
to `WithArgs`). -/
structure ProcessT where
  args : List String
  env : List String
  cwd : String
deriving DecidableEq, Repr

/-- A runtime spec (`specs.Spec`); `process` is a pointer in Go, hence an
`Option` here, and `annotations` is a possibly-nil map. -/
structure Spec where
  version : String
  process : Option ProcessT
  hostname : String
  annotations : Option (List (String × String))
deriving DecidableEq, Repr

/-- Embedding of `WithArgs` from `spec.go`: the returned option writes
`s.Process.Args = args`.  `s.Process` is dereferenced unconditionally, so a
spec with nil `Process` reaches the nil-pointer-dereference branch, the
`none` of the total embedding. -/
def WithArgs (args : List String) (s : Spec) : Option Spec :=
  match s.process with
  | none => none
  | some p => some { s with process := some { p with args := args } }

end SpecGo

section Fixtures

/-- Concrete config descriptor used by the concrete test stores. -/
def cfgDesc : Descriptor :=
  { mediaType := "application/vnd.oci.image.config.v1+json", digest := Digest.str "cfg", size := 7 }

/-- Concrete compressed layer descriptor. -/
def layerA : Descriptor :=
  { mediaType := "application/vnd.oci.image.layer.v1.tar+gzip", digest := Digest.str "la", size := 11 }

/-- Concrete compressed layer descriptor. -/
def layerB : Descriptor :=
  { mediaType := "application/vnd.oci.image.layer.v1.tar+gzip", digest := Digest.str "lb", size := 12 }

/-- Concrete compressed layer descriptor. -/
def layerC : Descriptor :=
  { mediaType := "application/vnd.oci.image.layer.v1.tar+gzip", digest := Digest.str "lc", size := 13 }

/-- Concrete diff ID. -/
def diffA : Digest := Digest.str "da"

/-- Concrete diff ID. -/
def diffB : Digest := Digest.str "db"

/-- Two-layer manifest. -/
def manifestTwo : Manifest := { config := cfgDesc, layers := [layerA, layerB] }

/-- Three-layer manifest. -/
def manifestThree : Manifest := { config := cfgDesc, layers := [layerA, layerB, layerC] }

/-- One-layer manifest. -/
def manifestOne : Manifest := { config := cfgDesc, layers := [layerA] }

/-- Concrete image whose target names the digest `manifest`. -/
def imgFix : Image :=
  { name := "docker.io/library/fix:latest"
    target := { mediaType := "application/vnd.oci.image.manifest.v1+json"
                digest := Digest.str "manifest", size := 3 } }

/-- Consistent store: two manifest layers and two diff IDs. -/
def storeOK : Store :=
  [(Digest.str "manifest", Blob.manifestBlob manifestTwo),
   (Digest.str "cfg", Blob.configBlob [diffA, diffB]),
   (Digest.str "la", Blob.rawBlob "layer-a-bytes"),
   (Digest.str "lb", Blob.rawBlob "layer-b-bytes")]

/-- Mismatched store: three manifest layers, two diff IDs. -/
def storeMismatch : Store :=
  [(Digest.str "manifest", Blob.manifestBlob manifestThree),
   (Digest.str "cfg", Blob.configBlob [diffA, diffB])]

/-- Mismatched store with different counts: one manifest layer, zero diff
IDs. -/
def storeMismatchOne : Store :=
  [(Digest.str "manifest", Blob.manifestBlob manifestOne),
   (Digest.str "cfg", Blob.configBlob [])]

/-- Store whose target blob is not a manifest. -/
def storeRawTarget : Store := [(Digest.str "manifest", Blob.rawBlob "junk")]

/-- Store holding the manifest but no config blob. -/
def storeNoCfg : Store := [(Digest.str "manifest", Blob.manifestBlob manifestTwo)]

/-- Process fixture for the spec-option claims. -/
def procFix : ProcessT := { args := ["sh"], env := ["PATH=/bin"], cwd := "/" }

/-- Spec fixture with a non-nil process. -/
def specWithProc : Spec :=
  { version := "1.0.0", process := some procFix, hostname := "host", annotations := none }

/-- Spec fixture with a nil process. -/
def specNoProc : Spec :=
  { version := "1.0.0", process := none, hostname := "host", annotations := none }

end Fixtures

section Helpers

/-- Unfolding of `getLayers` once both reads succeed: when the target blob
is a manifest and the diff-ID chain resolves, only the length check
decides the outcome. -/
theorem getLayers_eq_of_reads (s : Store) (img : Image) (m : Manifest) (ids : List Digest)
    (hm : Store.lookup s img.target.digest = some (Blob.manifestBlob m))
    (hr : Image.RootFS s img = .ok ids) :
    getLayers s img =
      if ids.length ≠ m.layers.length then .error layerMismatchErr
      else .ok (mkLayers ids m.layers) := by
  simp [getLayers, ReadBlob, hm, unmarshalManifest, hr]

/-- Element-wise description of `mkLayers`. -/
theorem mkLayers_getElem? (ids : List Digest) (mls : List Descriptor) (i : Nat) :
    (mkLayers ids mls)[i]? =
      (ids[i]?.bind fun dg => mls[i]?.map fun d =>
        { diff := { mediaType := MediaTypeImageLayer, digest := dg, size := 0 }, blob := d }) := by
  induction ids generalizing mls i with
  | nil => simp [mkLayers]
  | cons dg ids ih =>
    cases mls with
    | nil => simp [mkLayers]
    | cons d mls =>
      cases i with
      | zero => simp [mkLayers]
      | succ i => simpa [mkLayers] using ih mls i

/-- Length of the layer list built by `mkLayers`. -/
theorem mkLayers_length (ids : List Digest) (mls : List Descriptor) :
    (mkLayers ids mls).length = Nat.min ids.length mls.length := by
  simp [mkLayers]

/-- Every layer built by `mkLayers` carries the uncompressed layer media
type on its diff descriptor. -/
theorem mkLayers_mem_mediaType (ids : List Digest) (mls : List Descriptor) :
    ∀ l ∈ mkLayers ids mls, l.diff.mediaType = MediaTypeImageLayer := by
  induction ids generalizing mls with
  | nil => simp [mkLayers]
  | cons dg ids ih =>
    cases mls with
    | nil => simp [mkLayers]
    | cons d mls =>
      intro l hl
      simp only [mkLayers, List.zipWith_cons_cons] at hl
      rcases List.mem_cons.mp hl with h | h
      · simp [h]
      · exact ih mls l h

/-- Success of `getLayers` always produces a `mkLayers` list. -/
theorem getLayers_ok_mkLayers (s : Store) (img : Image) (ls : List Layer)
    (h : getLayers s img = .ok ls) :
    ∃ ids mls, ls = mkLayers ids mls := by
  unfold getLayers at h
  split at h
  · exact absurd h (by simp)
  · split at h
    · exact absurd h (by simp)
    · split at h
      · exact absurd h (by simp)
      · split at h
        · exact absurd h (by simp)
        · exact ⟨_, _, (Except.ok.inj h).symm⟩

/-- Concrete layer list produced by `getLayers` on the consistent store. -/
def layersOK : List Layer :=
  [{ diff := { mediaType := MediaTypeImageLayer, digest := diffA, size := 0 }, blob := layerA },
   { diff := { mediaType := MediaTypeImageLayer, digest := diffB, size := 0 }, blob := layerB }]

/-- The second layer of `layersOK`. -/
def layerFixB : Layer :=
  { diff := { mediaType := MediaTypeImageLayer, digest := diffB, size := 0 }, blob := layerB }

end Helpers

/-- C1: when the manifest blob and the diff-ID chain both read successfully,
`getLayers` succeeds iff the diff-ID count equals the manifest layer count;
on a mismatch it returns the layer-mismatch error and `Unpack` returns that
same error with an empty collaborator trace — no snapshotter or diff-service
call is made. -/
theorem getLayers_succeeds_iff_counts_match (s : Store) (img : Image) (m : Manifest)
    (ids : List Digest) (applyOK : Descriptor → Bool)
    (hm : Store.lookup s img.target.digest = some (Blob.manifestBlob m))
    (hr : Image.RootFS s img = .ok ids) :
    ((∃ ls, getLayers s img = .ok ls) ↔ ids.length = m.layers.length) ∧
    (ids.length ≠ m.layers.length →
      getLayers s img = .error layerMismatchErr ∧
      Unpack applyOK s img = (.error layerMismatchErr, [])) := by
  have he := getLayers_eq_of_reads s img m ids hm hr
  by_cases h : ids.length = m.layers.length
  · refine ⟨?_, fun hne => absurd h hne⟩
    simp [he, h]
  · refine ⟨?_, fun _ => ?_⟩
    · simp [he, h]
    · have hg : getLayers s img = .error layerMismatchErr := by simp [he, h]
      exact ⟨hg, by simp [Unpack, hg]⟩

theorem getLayers_succeeds_iff_counts_match_witness :
    getLayers storeMismatch imgFix = .error layerMismatchErr ∧
    Unpack (fun _ => true) storeMismatch imgFix = (.error layerMismatchErr, []) :=
  (getLayers_succeeds_iff_counts_match storeMismatch imgFix manifestThree [diffA, diffB]
    (fun _ => true) (by decide) (by decide)).2 (by decide)

/-- C2: on success, `getLayers` returns a list of the manifest's layer
count pairing, at every index, the manifest layer descriptor as the blob
with the diff ID at the same index as the diff digest, in manifest order. -/
theorem getLayers_pairs_blob_and_diff (s : Store) (img : Image) (m : Manifest)
    (ids : List Digest) (ls : List Layer)
    (hm : Store.lookup s img.target.digest = some (Blob.manifestBlob m))
    (hr : Image.RootFS s img = .ok ids)
    (h : getLayers s img = .ok ls) :
    ls.length = m.layers.length ∧
    ∀ (i : Nat) (l : Layer) (d : Descriptor) (dg : Digest),
      ls[i]? = some l → m.layers[i]? = some d → ids[i]? = some dg →
      l.blob = d ∧ l.diff.digest = dg := by
  have he := getLayers_eq_of_reads s img m ids hm hr
  rw [he] at h
  by_cases hlen : ids.length = m.layers.length
  · simp only [hlen, ne_eq, not_true_eq_false, if_false, ite_false] at h
    have hls : mkLayers ids m.layers = ls := by
      simpa using h
    subst hls
    refine ⟨by simp [mkLayers_length, hlen], ?_⟩
    intro i l d dg hl hd hdg
    rw [mkLayers_getElem?, hdg, hd] at hl
    simp at hl
    subst hl
    exact ⟨rfl, rfl⟩
  · simp [hlen] at h

theorem getLayers_pairs_blob_and_diff_witness :
    layerFixB.blob = layerB ∧ layerFixB.diff.digest = diffB :=
  (getLayers_pairs_blob_and_diff storeOK imgFix manifestTwo [diffA, diffB] layersOK
    (by decide) (by decide) (by decide)).2 1 layerFixB layerB diffB
    (by decide) (by decide) (by decide)

/-- C5 counterexample: on a layer-count mismatch, `getLayers` returns a
constant error message — the same for a three-versus-two and for a
one-versus-zero mismatch — containing no digit, so the error does not
identify the two lengths. -/
theorem getLayers_mismatch_message_counterexample :
    getLayers storeMismatch imgFix = .error layerMismatchErr ∧
    getLayers storeMismatchOne imgFix = .error layerMismatchErr ∧
    layerMismatchErr.data.all (fun c => !c.isDigit) = true := by decide

/-- C5 amended: when the layer counts disagree, `getLayers` fails with the
fixed layer-mismatch error message `mismatched image rootfs and manifest
layers`, which does not include either count. -/
theorem getLayers_mismatch_fixed_message (s : Store) (img : Image) (m : Manifest)
    (ids : List Digest)
    (hm : Store.lookup s img.target.digest = some (Blob.manifestBlob m))
    (hr : Image.RootFS s img = .ok ids)
    (hne : ids.length ≠ m.layers.length) :
    getLayers s img = .error layerMismatchErr := by
  rw [getLayers_eq_of_reads s img m ids hm hr]
  simp [hne]

theorem getLayers_mismatch_fixed_message_witness :
    getLayers storeMismatch imgFix = .error layerMismatchErr :=
  getLayers_mismatch_fixed_message storeMismatch imgFix manifestThree [diffA, diffB]
    (by decide) (by decide) (by decide)

/-- C6: `getLayers` reads the manifest blob keyed by `image.Target.Digest`
and the diff-ID chain from the config blob; when the manifest blob is
absent, unparseable, or the diff-ID chain fails to resolve, `getLayers`
returns the corresponding wrapped error and `Unpack` propagates it with an
empty collaborator trace — before any snapshot work. -/
theorem getLayers_read_failures (s : Store) (img : Image) (applyOK : Descriptor → Bool) :
    (Store.lookup s img.target.digest = none →
      getLayers s img = .error (wrap "failed to read manifest blob" notFoundErr) ∧
      Unpack applyOK s img = (.error (wrap "failed to read manifest blob" notFoundErr), [])) ∧
    (∀ b, Store.lookup s img.target.digest = some b → (∀ m, b ≠ Blob.manifestBlob m) →
      ∃ e, getLayers s img = .error (wrap "failed to unmarshal manifest" e) ∧
        Unpack applyOK s img = (.error (wrap "failed to unmarshal manifest" e), [])) ∧
    (∀ m, Store.lookup s img.target.digest = some (Blob.manifestBlob m) →
      ∀ e, Image.RootFS s img = .error e →
        getLayers s img = .error (wrap "failed to resolve rootfs" e) ∧
        Unpack applyOK s img = (.error (wrap "failed to resolve rootfs" e), [])) := by
  refine ⟨fun hn => ?_, fun b hb hnm => ?_, fun m hm e hre => ?_⟩
  · have hg : getLayers s img = .error (wrap "failed to read manifest blob" notFoundErr) := by
      simp [getLayers, ReadBlob, hn]
    exact ⟨hg, by simp [Unpack, hg]⟩
  · refine ⟨"invalid manifest", ?_⟩
    have hum : unmarshalManifest b = .error "invalid manifest" := by
      cases b with
      | manifestBlob m => exact absurd rfl (hnm m)
      | configBlob ids => rfl
      | rawBlob bytes => rfl
    have hg : getLayers s img = .error (wrap "failed to unmarshal manifest" "invalid manifest") := by
      simp [getLayers, ReadBlob, hb, hum]
    exact ⟨hg, by simp [Unpack, hg]⟩
  · have hg : getLayers s img = .error (wrap "failed to resolve rootfs" e) := by
      simp [getLayers, ReadBlob, hm, unmarshalManifest, hre]
    exact ⟨hg, by simp [Unpack, hg]⟩

theorem getLayers_read_failures_witness :
    (getLayers [] imgFix = .error (wrap "failed to read manifest blob" notFoundErr) ∧
      Unpack (fun _ => true) [] imgFix =
        (.error (wrap "failed to read manifest blob" notFoundErr), [])) ∧
    (∃ e, getLayers storeRawTarget imgFix = .error (wrap "failed to unmarshal manifest" e) ∧
      Unpack (fun _ => true) storeRawTarget imgFix =
        (.error (wrap "failed to unmarshal manifest" e), [])) ∧
    (getLayers storeNoCfg imgFix = .error (wrap "failed to resolve rootfs" notFoundErr) ∧
      Unpack (fun _ => true) storeNoCfg imgFix =
        (.error (wrap "failed to resolve rootfs" notFoundErr), [])) :=
  ⟨(getLayers_read_failures [] imgFix (fun _ => true)).1 rfl,
   (getLayers_read_failures storeRawTarget imgFix (fun _ => true)).2.1
     (Blob.rawBlob "junk") (by decide) (fun m h => Blob.noConfusion h),
   (getLayers_read_failures storeNoCfg imgFix (fun _ => true)).2.2
     manifestTwo (by decide) notFoundErr (by decide)⟩

/-- C9: every layer produced by a successful `getLayers` has its diff
descriptor's media type fixed to the uncompressed `MediaTypeImageLayer`,
independent of the corresponding compressed blob's media type. -/
theorem getLayers_diff_mediaType (s : Store) (img : Image) (ls : List Layer)
    (h : getLayers s img = .ok ls) :
    ∀ l ∈ ls, l.diff.mediaType = MediaTypeImageLayer := by
  obtain ⟨ids, mls, hls⟩ := getLayers_ok_mkLayers s img ls h
  subst hls
  exact mkLayers_mem_mediaType ids mls

theorem getLayers_diff_mediaType_witness :
    layerFixB.diff.mediaType = MediaTypeImageLayer :=
  getLayers_diff_mediaType storeOK imgFix layersOK (by decide) layerFixB (by decide)

/-- C10: applying `WithArgs` to a spec with a non-nil process sets exactly
`Process.Args` to the given list and changes nothing else; on a spec with a
nil process the write dereferences a nil pointer, reaching the error branch
of the total embedding. -/
theorem WithArgs_requires_process (args : List String) (s : Spec) :
    (∀ p, s.process = some p →
      WithArgs args s = some { s with process := some { p with args := args } }) ∧
    (s.process = none → WithArgs args s = none) := by
  refine ⟨fun p hp => ?_, fun hp => ?_⟩
  · simp [WithArgs, hp]
  · simp [WithArgs, hp]

/-- Store lookups are preserved by `Dispatch`: the blob store only grows,
an already-stored blob is never replaced or removed, whatever the
outcome. -/
theorem Dispatch_lookup_mono (remote : Digest → Option Blob) :
    ∀ (fuel : Nat) (s : Store) (ds : List Descriptor) (k : Digest) (v : Blob),
      Store.lookup s k = some v →
      Store.lookup (Dispatch remote fuel s ds).2.1 k = some v := by
  intro fuel
  induction fuel with
  | zero =>
    intro s ds k v hk
    cases ds with
    | nil => simpa [Dispatch] using hk
    | cons d rest => simpa [Dispatch] using hk
  | succ fuel ih =>
    intro s ds k v hk
    cases ds with
    | nil => simpa [Dispatch] using hk
    | cons d rest =>
      cases hl : Store.lookup s d.digest with
      | some b =>
        simpa [Dispatch, hl] using ih s (Blob.children b ++ rest) k v hk
      | none =>
        cases hrm : remote d.digest with
        | none => simpa [Dispatch, hl, hrm] using hk
        | some b =>
          have hne : d.digest ≠ k := by
            intro he
            rw [← he, hl] at hk
            cases hk
          have hk' : Store.lookup ((d.digest, b) :: s) k = some v := by
            simp [Store.lookup, hne, hk]
          simpa [Dispatch, hl, hrm] using ih ((d.digest, b) :: s) (Blob.children b ++ rest) k v hk'

/-- Every event emitted by `Dispatch` is a fetch. -/
theorem Dispatch_trace_fetch (remote : Digest → Option Blob) :
    ∀ (fuel : Nat) (s : Store) (ds : List Descriptor),
      ∀ ev ∈ (Dispatch remote fuel s ds).2.2, ev.isFetch = true := by
  intro fuel
  induction fuel with
  | zero =>
    intro s ds ev hev
    cases ds with
    | nil => simp [Dispatch] at hev
    | cons d rest => simp [Dispatch] at hev
  | succ fuel ih =>
    intro s ds ev hev
    cases ds with
    | nil => simp [Dispatch] at hev
    | cons d rest =>
      cases hl : Store.lookup s d.digest with
      | some b =>
        rw [show Dispatch remote (fuel + 1) s (d :: rest) =
              Dispatch remote fuel s (Blob.children b ++ rest) by simp [Dispatch, hl]] at hev
        exact ih s (Blob.children b ++ rest) ev hev
      | none =>
        cases hrm : remote d.digest with
        | none => simp [Dispatch, hl, hrm] at hev
        | some b =>
          simp only [Dispatch, hl, hrm, List.mem_cons] at hev
          rcases hev with h | h
          · simp [h, Ev.isFetch]
          · exact ih ((d.digest, b) :: s) (Blob.children b ++ rest) ev h

/-- C4: Dispatch is idempotent with respect to the blob store — after a
successful `Dispatch` over a content graph, running `Dispatch` again over
the same graph against the resulting store issues zero fetches (every node
already resolvable in the store is treated as satisfied) and leaves the
store unchanged. -/
theorem Dispatch_idempotent (remote : Digest → Option Blob) :
    ∀ (fuel : Nat) (s : Store) (ds : List Descriptor) (s' : Store) (evs : List Ev),
      Dispatch remote fuel s ds = (.ok (), s', evs) →
      Dispatch remote fuel s' ds = (.ok (), s', []) := by
  intro fuel
  induction fuel with
  | zero =>
    intro s ds s' evs h
    cases ds with
    | nil =>
      simp only [Dispatch, Prod.mk.injEq, true_and] at h
      obtain ⟨hs, hevs⟩ := h
      subst hs
      simp [Dispatch]
    | cons d rest => simp [Dispatch] at h
  | succ fuel ih =>
    intro s ds s' evs h
    cases ds with
    | nil =>
      simp only [Dispatch, Prod.mk.injEq, true_and] at h
      obtain ⟨hs, hevs⟩ := h
      subst hs
      simp [Dispatch]
    | cons d rest =>
      cases hl : Store.lookup s d.digest with
      | some b =>
        rw [show Dispatch remote (fuel + 1) s (d :: rest) =
              Dispatch remote fuel s (Blob.children b ++ rest) by simp [Dispatch, hl]] at h
        have hl' : Store.lookup s' d.digest = some b := by
          have hmono := Dispatch_lookup_mono remote fuel s (Blob.children b ++ rest) d.digest b hl
          rw [h] at hmono
          exact hmono
        rw [show Dispatch remote (fuel + 1) s' (d :: rest) =
              Dispatch remote fuel s' (Blob.children b ++ rest) by simp [Dispatch, hl']]
        exact ih s (Blob.children b ++ rest) s' evs h
      | none =>
        cases hrm : remote d.digest with
        | none => simp [Dispatch, hl, hrm] at h
        | some b =>
          rcases hrec : Dispatch remote fuel ((d.digest, b) :: s) (Blob.children b ++ rest)
            with ⟨r1, s2, evs2⟩
          rw [show Dispatch remote (fuel + 1) s (d :: rest) =
                ((Dispatch remote fuel ((d.digest, b) :: s) (Blob.children b ++ rest)).1,
                 (Dispatch remote fuel ((d.digest, b) :: s) (Blob.children b ++ rest)).2.1,
                 Ev.fetch d.digest ::
                   (Dispatch remote fuel ((d.digest, b) :: s) (Blob.children b ++ rest)).2.2)
              by simp [Dispatch, hl, hrm]] at h
          rw [hrec] at h
          simp only [Prod.mk.injEq] at h
          obtain ⟨hr1, hs2, hevs2⟩ := h
          subst hs2
          have hl' : Store.lookup s2 d.digest = some b := by
            have hhead : Store.lookup ((d.digest, b) :: s) d.digest = some b := by
              simp [Store.lookup]
            have hmono := Dispatch_lookup_mono remote fuel ((d.digest, b) :: s)
              (Blob.children b ++ rest) d.digest b hhead
            rw [hrec] at hmono
            exact hmono
          rw [show Dispatch remote (fuel + 1) s2 (d :: rest) =
                Dispatch remote fuel s2 (Blob.children b ++ rest) by simp [Dispatch, hl']]
          apply ih ((d.digest, b) :: s) (Blob.children b ++ rest) s2 evs2
          rw [hrec, hr1]

/-- Concrete remote serving the consistent two-layer image. -/
def remoteFix : Digest → Option Blob := fun d =>
  if d = Digest.str "manifest" then some (Blob.manifestBlob manifestTwo)
  else if d = Digest.str "cfg" then some (Blob.configBlob [diffA, diffB])
  else if d = Digest.str "la" then some (Blob.rawBlob "layer-a-bytes")
  else if d = Digest.str "lb" then some (Blob.rawBlob "layer-b-bytes")
  else none

/-- Store resulting from dispatching `remoteFix` into an empty store. -/
def storeFixFull : Store :=
  [(Digest.str "lb", Blob.rawBlob "layer-b-bytes"),
   (Digest.str "la", Blob.rawBlob "layer-a-bytes"),
   (Digest.str "cfg", Blob.configBlob [diffA, diffB]),
   (Digest.str "manifest", Blob.manifestBlob manifestTwo)]

theorem Dispatch_idempotent_witness :
    Dispatch remoteFix 8 storeFixFull [imgFix.target] = (.ok (), storeFixFull, []) :=
  Dispatch_idempotent remoteFix 8 [] [imgFix.target] storeFixFull
    [Ev.fetch (Digest.str "manifest"), Ev.fetch (Digest.str "cfg"),
     Ev.fetch (Digest.str "la"), Ev.fetch (Digest.str "lb")] (by decide)

theorem WithArgs_requires_process_witness :
    WithArgs ["echo", "hello"] specWithProc =
      some { specWithProc with process := some { procFix with args := ["echo", "hello"] } } ∧
    WithArgs ["echo", "hello"] specNoProc = none :=
  ⟨(WithArgs_requires_process ["echo", "hello"] specWithProc).1 procFix rfl,
   (WithArgs_requires_process ["echo", "hello"] specNoProc).2 rfl⟩

/-- Every event emitted by `ApplyLayers` is a snapshot prepare, a
diff-service application, or a snapshot commit. -/
theorem ApplyLayers_trace_shape (applyOK : Descriptor → Bool) :
    ∀ (parent : Option Digest) (ls : List Layer), ∀ ev ∈ (ApplyLayers applyOK parent ls).2,
      (∃ k pa, ev = Ev.prepare k pa) ∨ (∃ b, ev = Ev.applyDiff b) ∨ (∃ k, ev = Ev.commit k) := by
  intro parent ls
  induction ls generalizing parent with
  | nil => intro ev hev; simp [ApplyLayers] at hev
  | cons l rest ih =>
    intro ev hev
    by_cases hok : applyOK l.blob
    · simp only [ApplyLayers, hok, if_true, List.mem_cons] at hev
      rcases hev with h | h | h | h
      · exact Or.inl ⟨_, _, h⟩
      · exact Or.inr (Or.inl ⟨_, h⟩)
      · exact Or.inr (Or.inr ⟨_, h⟩)
      · exact ih _ ev h
    · simp only [ApplyLayers, hok, if_false, List.mem_cons, List.not_mem_nil, or_false,
        Bool.false_eq_true, ite_false] at hev
      rcases hev with h | h
      · exact Or.inl ⟨_, _, h⟩
      · exact Or.inr (Or.inl ⟨_, h⟩)

/-- Every event emitted by `Unpack` is a snapshot prepare, a diff-service
application, or a snapshot commit. -/
theorem Unpack_trace_shape (applyOK : Descriptor → Bool) (s : Store) (img : Image) :
    ∀ ev ∈ (Unpack applyOK s img).2,
      (∃ k pa, ev = Ev.prepare k pa) ∨ (∃ b, ev = Ev.applyDiff b) ∨ (∃ k, ev = Ev.commit k) := by
  intro ev hev
  unfold Unpack at hev
  split at hev
  · simp at hev
  · exact ApplyLayers_trace_shape applyOK none _ ev hev

/-- A fetch-classified event is a fetch of some digest. -/
theorem Ev.isFetch_shape (ev : Ev) (h : ev.isFetch = true) : ∃ d, ev = Ev.fetch d := by
  cases ev
  case fetch d => exact ⟨d, rfl⟩
  all_goals exact absurd h (by simp [Ev.isFetch])

/-- Reading back the name just upserted returns exactly the upserted
record. -/
theorem imageGet_imagePut (is : ImageStore) (name : String) (d : Descriptor) :
    imageGet (imagePut is name d) name = .ok { name := name, target := d } := by
  simp [imageGet, imagePut]

/-- A key present in the store has a successful lookup. -/
theorem Store.lookup_mem (s : Store) (kv : Digest × Blob) (h : kv ∈ s) :
    ∃ v, Store.lookup s kv.1 = some v := by
  induction s with
  | nil => cases h
  | cons hd tl ih =>
    by_cases he : hd.1 = kv.1
    · exact ⟨hd.2, by simp [Store.lookup, he]⟩
    · rcases List.mem_cons.mp h with h' | h'
      · subst h'; exact absurd rfl he
      · obtain ⟨v, hv⟩ := ih h'
        exact ⟨v, by simp [Store.lookup, he, hv]⟩

/-- Pointwise lookup preservation gives the Boolean inclusion of stores. -/
theorem Store.includes_of_mono (s' s : Store)
    (h : ∀ k v, Store.lookup s k = some v → Store.lookup s' k = some v) :
    Store.includes s' s = true := by
  simp only [Store.includes, List.all_eq_true, decide_eq_true_eq]
  intro kv hkv
  obtain ⟨v, hv⟩ := Store.lookup_mem s kv hkv
  rw [hv, h kv.1 v hv]

/-- Pull never removes a stored blob: every lookup that succeeds in the
initial blob store succeeds identically in the final one. -/
theorem Pull_store_mono (w : World) (fuel : Nat) (s : Store) (is : ImageStore)
    (ref : String) (opts : List PullOpt) (k : Digest) (v : Blob)
    (hk : Store.lookup s k = some v) :
    Store.lookup (Pull w fuel s is ref opts).store k = some v := by
  have hd : ∀ ds, Store.lookup (Dispatch w.remote fuel s ds).2.1 k = some v :=
    fun ds => Dispatch_lookup_mono w.remote fuel s ds k v hk
  unfold Pull
  dsimp only
  repeat' split
  all_goals first | exact hk | exact hd _

/-- Classification of every event a `Pull` trace can contain: resolver and
fetcher calls, fetches, image-store calls, and — only when an unpacker was
installed — the unpack entry and snapshotter/diff-service calls. -/
theorem Pull_trace_all (p : Ev → Bool) (w : World) (fuel : Nat) (s : Store) (is : ImageStore)
    (ref : String) (opts : List PullOpt)
    (hres : ∀ r, p (.resolveEv r) = true)
    (hfet : ∀ n, p (.fetcherEv n) = true)
    (hfch : ∀ d, p (.fetch d) = true)
    (hput : ∀ n d, p (.imagePutEv n d) = true)
    (hget : ∀ n, p (.imageGetEv n) = true)
    (hunp : (applyPullOpts defaultPullContext opts).unpacker = some () →
      (∀ i, p (.unpackEv i) = true) ∧ (∀ k pa, p (.prepare k pa) = true) ∧
      (∀ b, p (.applyDiff b) = true) ∧ (∀ k, p (.commit k) = true)) :
    ∀ ev ∈ (Pull w fuel s is ref opts).trace, p ev = true := by
  have hdisp : ∀ ds ev, ev ∈ (Dispatch w.remote fuel s ds).2.2 → p ev = true := by
    intro ds ev hev
    obtain ⟨d, hd⟩ := Ev.isFetch_shape ev (Dispatch_trace_fetch w.remote fuel s ds ev hev)
    rw [hd]; exact hfch d
  have hu : ∀ (st : Store) (i : Image) (ev : Ev),
      (applyPullOpts defaultPullContext opts).unpacker = some () →
      ev ∈ (Unpack w.applyOK st i).2 → p ev = true := by
    intro st i ev hopt hev
    obtain ⟨h1, h2, h3, h4⟩ := hunp hopt
    rcases Unpack_trace_shape w.applyOK st i ev hev with ⟨k, pa, h⟩ | ⟨b, h⟩ | ⟨k, h⟩
    · rw [h]; exact h2 k pa
    · rw [h]; exact h3 b
    · rw [h]; exact h4 k
  intro ev hev
  unfold Pull at hev
  dsimp only at hev
  split at hev
  · simp only [List.mem_singleton] at hev
    rw [hev]; exact hres ref
  · split at hev
    · simp only [List.mem_cons, List.not_mem_nil, or_false] at hev
      rcases hev with h | h
      · rw [h]; exact hres ref
      · rw [h]; exact hfet _
    · split at hev
      · simp only [List.mem_cons] at hev
        rcases hev with h | h | h
        · rw [h]; exact hres ref
        · rw [h]; exact hfet _
        · exact hdisp _ ev h
      · split at hev
        · simp only [List.mem_append, List.mem_cons, List.mem_singleton,
            List.not_mem_nil, or_false] at hev
          rcases hev with (h | h | h) | h
          · rw [h]; exact hres ref
          · rw [h]; exact hfet _
          · exact hdisp _ ev h
          · rw [h]; exact hput _ _
        · split at hev
          · simp only [List.mem_append, List.mem_cons, List.mem_singleton,
              List.not_mem_nil, or_false] at hev
            rcases hev with ((h | h | h) | h) | h
            · rw [h]; exact hres ref
            · rw [h]; exact hfet _
            · exact hdisp _ ev h
            · rw [h]; exact hput _ _
            · rw [h]; exact hget _
          · split at hev
            · simp only [List.mem_append, List.mem_cons, List.mem_singleton,
                List.not_mem_nil, or_false] at hev
              rcases hev with ((h | h | h) | h) | h
              · rw [h]; exact hres ref
              · rw [h]; exact hfet _
              · exact hdisp _ ev h
              · rw [h]; exact hput _ _
              · rw [h]; exact hget _
            · split at hev
              · simp only [List.mem_append, List.mem_cons, List.mem_singleton,
                  List.not_mem_nil, or_false] at hev
                rcases hev with ((h | h | h) | h) | h
                · rw [h]; exact hres ref
                · rw [h]; exact hfet _
                · exact hdisp _ ev h
                · rw [h]; exact hput _ _
                · rw [h]; exact hget _
              · rename_i i hgi val heq
                split at hev
                · simp only [List.mem_append, List.mem_cons, List.mem_singleton,
                    List.not_mem_nil, or_false] at hev
                  rcases hev with (((h | h | h) | h) | h) | h | h
                  · rw [h]; exact hres ref
                  · rw [h]; exact hfet _
                  · exact hdisp _ ev h
                  · rw [h]; exact hput _ _
                  · rw [h]; exact hget _
                  · rw [h]; exact (hunp heq).1 i
                  · exact hu _ i ev heq h
                · simp only [List.mem_append, List.mem_cons, List.mem_singleton,
                    List.not_mem_nil, or_false] at hev
                  rcases hev with (((h | h | h) | h) | h) | h | h
                  · rw [h]; exact hres ref
                  · rw [h]; exact hfet _
                  · exact hdisp _ ev h
                  · rw [h]; exact hput _ _
                  · rw [h]; exact hget _
                  · rw [h]; exact (hunp heq).1 i
                  · exact hu _ i ev heq h

/-- C3: Pull performs its stages in order — resolve the reference, obtain a
fetcher, dispatch rooted at the resolved descriptor, Put the name/descriptor
record into the image store, Get the image back, then (only if requested)
unpack; whenever a stage fails, Pull returns that stage's error with no
image and executes none of the later stages — in particular, after a
dispatch failure no image-store call appears in the trace. -/
theorem Pull_stage_order (w : World) (fuel : Nat) (s : Store) (is : ImageStore)
    (ref : String) (opts : List PullOpt) :
    (∀ e, w.resolve ref = .error e →
      Pull w fuel s is ref opts =
        { result := .error e, store := s, imageStore := is, trace := [Ev.resolveEv ref] }) ∧
    (∀ name desc e, w.resolve ref = .ok (name, desc) → w.fetcherErr = some e →
      Pull w fuel s is ref opts =
        { result := .error e, store := s, imageStore := is
          trace := [Ev.resolveEv ref, Ev.fetcherEv name] }) ∧
    (∀ name desc e s' evs, w.resolve ref = .ok (name, desc) → w.fetcherErr = none →
      Dispatch w.remote fuel s [desc] = (.error e, s', evs) →
      Pull w fuel s is ref opts =
        { result := .error e, store := s', imageStore := is
          trace := Ev.resolveEv ref :: Ev.fetcherEv name :: evs } ∧
      (Pull w fuel s is ref opts).trace.all (fun ev => !ev.isImageStoreCall) = true) ∧
    (∀ name desc e s' evs, w.resolve ref = .ok (name, desc) → w.fetcherErr = none →
      Dispatch w.remote fuel s [desc] = (.ok (), s', evs) → w.putErr = some e →
      Pull w fuel s is ref opts =
        { result := .error e, store := s', imageStore := is
          trace := (Ev.resolveEv ref :: Ev.fetcherEv name :: evs) ++ [Ev.imagePutEv name desc] }) ∧
    (∀ name desc e s' evs, w.resolve ref = .ok (name, desc) → w.fetcherErr = none →
      Dispatch w.remote fuel s [desc] = (.ok (), s', evs) → w.putErr = none →
      w.getErr = some e →
      Pull w fuel s is ref opts =
        { result := .error e, store := s', imageStore := imagePut is name desc
          trace := ((Ev.resolveEv ref :: Ev.fetcherEv name :: evs) ++
            [Ev.imagePutEv name desc]) ++ [Ev.imageGetEv name] }) ∧
    (∀ name desc s' evs, w.resolve ref = .ok (name, desc) → w.fetcherErr = none →
      Dispatch w.remote fuel s [desc] = (.ok (), s', evs) → w.putErr = none →
      w.getErr = none → (applyPullOpts defaultPullContext opts).unpacker = none →
      Pull w fuel s is ref opts =
        { result := .ok { name := name, target := desc }, store := s'
          imageStore := imagePut is name desc
          trace := ((Ev.resolveEv ref :: Ev.fetcherEv name :: evs) ++
            [Ev.imagePutEv name desc]) ++ [Ev.imageGetEv name] }) ∧
    (∀ name desc e s' evs uevs, w.resolve ref = .ok (name, desc) → w.fetcherErr = none →
      Dispatch w.remote fuel s [desc] = (.ok (), s', evs) → w.putErr = none →
      w.getErr = none → (applyPullOpts defaultPullContext opts).unpacker = some () →
      Unpack w.applyOK s' { name := name, target := desc } = (.error e, uevs) →
      Pull w fuel s is ref opts =
        { result := .error e, store := s', imageStore := imagePut is name desc
          trace := (((Ev.resolveEv ref :: Ev.fetcherEv name :: evs) ++
            [Ev.imagePutEv name desc]) ++ [Ev.imageGetEv name]) ++
            Ev.unpackEv { name := name, target := desc } :: uevs }) ∧
    (∀ name desc s' evs uevs, w.resolve ref = .ok (name, desc) → w.fetcherErr = none →
      Dispatch w.remote fuel s [desc] = (.ok (), s', evs) → w.putErr = none →
      w.getErr = none → (applyPullOpts defaultPullContext opts).unpacker = some () →
      Unpack w.applyOK s' { name := name, target := desc } = (.ok (), uevs) →
      Pull w fuel s is ref opts =
        { result := .ok { name := name, target := desc }, store := s'
          imageStore := imagePut is name desc
          trace := (((Ev.resolveEv ref :: Ev.fetcherEv name :: evs) ++
            [Ev.imagePutEv name desc]) ++ [Ev.imageGetEv name]) ++
            Ev.unpackEv { name := name, target := desc } :: uevs }) := by
  refine ⟨?_, ?_, ?_, ?_, ?_, ?_, ?_, ?_⟩
  · intro e h1
    simp only [Pull, h1]
  · intro name desc e h1 h2
    simp only [Pull, h1, h2]
  · intro name desc e s' evs h1 h2 h3
    have hEq : Pull w fuel s is ref opts =
        { result := .error e, store := s', imageStore := is
          trace := Ev.resolveEv ref :: Ev.fetcherEv name :: evs } := by
      simp only [Pull, h1, h2, h3]
    refine ⟨hEq, ?_⟩
    rw [hEq]
    simp only [List.all_eq_true]
    intro ev hev
    simp only [List.mem_cons] at hev
    rcases hev with h | h | h
    · rw [h]; rfl
    · rw [h]; rfl
    · have hf := Dispatch_trace_fetch w.remote fuel s [desc] ev
      rw [h3] at hf
      obtain ⟨d, hd⟩ := Ev.isFetch_shape ev (hf h)
      rw [hd]; rfl
  · intro name desc e s' evs h1 h2 h3 h4
    simp only [Pull, h1, h2, h3, h4]
  · intro name desc e s' evs h1 h2 h3 h4 h5
    simp only [Pull, h1, h2, h3, h4, h5]
  · intro name desc s' evs h1 h2 h3 h4 h5 h6
    simp only [Pull, h1, h2, h3, h4, h5, imageGet_imagePut, h6]
  · intro name desc e s' evs uevs h1 h2 h3 h4 h5 h6 h7
    simp only [Pull, h1, h2, h3, h4, h5, imageGet_imagePut, h6, h7]
  · intro name desc s' evs uevs h1 h2 h3 h4 h5 h6 h7
    simp only [Pull, h1, h2, h3, h4, h5, imageGet_imagePut, h6, h7]

/-- The fixture image name. -/
def fixName : String := "docker.io/library/fix:latest"

/-- World whose resolver fails. -/
def wResolveFail : World :=
  { resolve := fun _ => .error "failed to resolve reference"
    fetcherErr := none, remote := remoteFix, putErr := none, getErr := none
    applyOK := fun _ => true }

/-- World resolving to the fixture image but serving no content. -/
def wDispFail : World :=
  { resolve := fun _ => .ok (fixName, imgFix.target)
    fetcherErr := none, remote := fun _ => none, putErr := none, getErr := none
    applyOK := fun _ => true }

/-- Fully functional world for the fixture image. -/
def wFix : World :=
  { resolve := fun _ => .ok (fixName, imgFix.target)
    fetcherErr := none, remote := remoteFix, putErr := none, getErr := none
    applyOK := fun _ => true }

/-- Fetch trace of dispatching the fixture image into an empty store. -/
def evsFix : List Ev :=
  [Ev.fetch (Digest.str "manifest"), Ev.fetch (Digest.str "cfg"),
   Ev.fetch (Digest.str "la"), Ev.fetch (Digest.str "lb")]

/-- Snapshotter/diff trace of unpacking the fixture image. -/
def uevsFix : List Ev :=
  [Ev.prepare diffA none, Ev.applyDiff layerA, Ev.commit diffA,
   Ev.prepare (Digest.chain diffA diffB) (some diffA), Ev.applyDiff layerB,
   Ev.commit (Digest.chain diffA diffB)]

theorem Pull_stage_order_witness :
    Pull wResolveFail 8 [] [] "r" [] =
      { result := .error "failed to resolve reference", store := [], imageStore := []
        trace := [Ev.resolveEv "r"] } ∧
    (Pull wDispFail 8 [] [] "r" [] =
      { result := .error notFoundErr, store := [], imageStore := []
        trace := [Ev.resolveEv "r", Ev.fetcherEv fixName] } ∧
     (Pull wDispFail 8 [] [] "r" []).trace.all (fun ev => !ev.isImageStoreCall) = true) ∧
    Pull wFix 8 [] [] "r" [PullOpt.withPullUnpack] =
      { result := .ok { name := fixName, target := imgFix.target }, store := storeFixFull
        imageStore := imagePut [] fixName imgFix.target
        trace := (((Ev.resolveEv "r" :: Ev.fetcherEv fixName :: evsFix) ++
          [Ev.imagePutEv fixName imgFix.target]) ++ [Ev.imageGetEv fixName]) ++
          Ev.unpackEv { name := fixName, target := imgFix.target } :: uevsFix } :=
  ⟨(Pull_stage_order wResolveFail 8 [] [] "r" []).1 "failed to resolve reference" rfl,
   (Pull_stage_order wDispFail 8 [] [] "r" []).2.2.1 fixName imgFix.target notFoundErr [] []
     rfl rfl (by decide),
   (Pull_stage_order wFix 8 [] [] "r" [PullOpt.withPullUnpack]).2.2.2.2.2.2.2 fixName
     imgFix.target storeFixFull evsFix uevsFix rfl rfl (by decide) rfl rfl rfl (by decide)⟩

/-- C7: with no pull option the pull context's unpacker stays nil and Pull
makes no snapshotter or diff-service call; `WithPullUnpack` installs the
unpacker, and a fully successful pull then invokes it on exactly the image
read back from the image store. -/
theorem Pull_unpacks_only_on_request (w : World) (fuel : Nat) (s : Store) (is : ImageStore)
    (ref : String) :
    (applyPullOpts defaultPullContext []).unpacker = none ∧
    (Pull w fuel s is ref []).trace.all
      (fun ev => !(ev.isSnapshotCall || ev.isDiffCall)) = true ∧
    (applyPullOpts defaultPullContext [PullOpt.withPullUnpack]).unpacker = some () ∧
    (∀ name desc s' evs, w.resolve ref = .ok (name, desc) → w.fetcherErr = none →
      Dispatch w.remote fuel s [desc] = (.ok (), s', evs) → w.putErr = none →
      w.getErr = none →
      Ev.unpackEv { name := name, target := desc } ∈
        (Pull w fuel s is ref [PullOpt.withPullUnpack]).trace) := by
  refine ⟨rfl, ?_, rfl, ?_⟩
  · rw [List.all_eq_true]
    intro ev hev
    exact Pull_trace_all (fun ev => !(ev.isSnapshotCall || ev.isDiffCall)) w fuel s is ref []
      (fun r => rfl) (fun n => rfl) (fun d => rfl) (fun n d => rfl) (fun n => rfl)
      (fun h => by simp [applyPullOpts, defaultPullContext] at h) ev hev
  · intro name desc s' evs h1 h2 h3 h4 h5
    rcases hur : Unpack w.applyOK s' { name := name, target := desc } with ⟨u1, u2⟩
    cases u1 with
    | error e =>
      rw [(Pull_stage_order w fuel s is ref [PullOpt.withPullUnpack]).2.2.2.2.2.2.1
        name desc e s' evs u2 h1 h2 h3 h4 h5 rfl hur]
      simp
    | ok u =>
      cases u
      rw [(Pull_stage_order w fuel s is ref [PullOpt.withPullUnpack]).2.2.2.2.2.2.2
        name desc s' evs u2 h1 h2 h3 h4 h5 rfl hur]
      simp

theorem Pull_unpacks_only_on_request_witness :
    Ev.unpackEv { name := fixName, target := imgFix.target } ∈
      (Pull wFix 8 [] [] "r" [PullOpt.withPullUnpack]).trace :=
  (Pull_unpacks_only_on_request wFix 8 [] [] "r").2.2.2 fixName imgFix.target
    storeFixFull evsFix rfl rfl (by decide) rfl rfl

/-- C8: partial progress is retained on failure — no execution of Pull or
Unpack, including every one that ends in an error, issues a delete or
rollback to the blob store, image store or snapshotter, and every blob
stored before a pull is still stored, unchanged, afterwards. -/
theorem Pull_Unpack_never_delete (w : World) (fuel : Nat) (s : Store) (is : ImageStore)
    (ref : String) (opts : List PullOpt) (applyOK : Descriptor → Bool) (img : Image) :
    (Pull w fuel s is ref opts).trace.all (fun ev => !ev.isDelete) = true ∧
    Store.includes (Pull w fuel s is ref opts).store s = true ∧
    (Unpack applyOK s img).2.all (fun ev => !ev.isDelete) = true := by
  refine ⟨?_, ?_, ?_⟩
  · rw [List.all_eq_true]
    intro ev hev
    exact Pull_trace_all (fun ev => !ev.isDelete) w fuel s is ref opts
      (fun r => rfl) (fun n => rfl) (fun d => rfl) (fun n d => rfl) (fun n => rfl)
      (fun _ => ⟨fun i => rfl, fun k pa => rfl, fun b => rfl, fun k => rfl⟩) ev hev
  · exact Store.includes_of_mono _ s fun k v hk => Pull_store_mono w fuel s is ref opts k v hk
  · rw [List.all_eq_true]
    intro ev hev
    rcases Unpack_trace_shape applyOK s img ev hev with ⟨k, pa, h⟩ | ⟨b, h⟩ | ⟨k, h⟩ <;>
      simp [h, Ev.isDelete]
